import Mathlib

/-
  Verification development for the Factory_Management repository
  (src/server.js plus the Mongoose model files).

  The embedding models JavaScript numbers as exact rationals (the spec's
  payroll and sale formulas apply no rounding, and every scenario value is
  exactly representable), and request/document field values as a small type
  of JSON-expressible scalars.  `Option ℚ` is the result type of numeric
  coercions, `none` standing for a non-finite result (NaN).  Database
  collections are Lean lists; the Mongo queries of the handlers become list
  filters, and writes become list updates threaded through a state record.
-/

/-- A JSON-expressible scalar value, as delivered to the handlers by the
body parsers (urlencoded / json bodies cannot carry NaN or Infinity as
literals, so those arise only as coercion results, modelled by `none` in
`Option ℚ`). -/
inductive JsVal where
  | undefVal : JsVal
  | jnull : JsVal
  | jbool : Bool → JsVal
  | num : ℚ → JsVal
  | str : String → JsVal
deriving DecidableEq

/-- JavaScript truthiness of a scalar value. -/
def truthy : JsVal → Bool
  | .undefVal => false
  | .jnull => false
  | .jbool b => b
  | .num q => q != 0
  | .str s => s != ""

/-- JavaScript `a || b` on scalar values. -/
def jsOr (a b : JsVal) : JsVal := if truthy a then a else b

/-- JavaScript `===` between a string (left) and a scalar value (right):
equal only when the right side is the same string. -/
def jsStrictEqStr (s : String) (v : JsVal) : Bool :=
  match v with
  | .str t => s == t
  | _ => false

/-- Numeric value of a decimal digit character. -/
def digitVal (c : Char) : Nat := c.toNat - 48

/-- Natural number denoted by a digit list (most significant first). -/
def natOfDigits (ds : List Char) : Nat :=
  ds.foldl (fun acc c => acc * 10 + digitVal c) 0

/-- Fractional value denoted by the digit list after a decimal point. -/
def fracOfDigits (ds : List Char) : ℚ :=
  ds.foldr (fun c acc => ((digitVal c : ℚ) + acc) / 10) 0

/-- JavaScript whitespace (the forms relevant to form/json input). -/
def isWS (c : Char) : Bool := c == ' ' || c == '\t' || c == '\n' || c == '\r'

/-- Parse a leading signed decimal numeral from a character list, returning
its value and the unconsumed remainder, or `none` when no digit is present.
Exponent forms are not modelled: the inputs in scope are plain decimals. -/
def parseDec (cs : List Char) : Option (ℚ × List Char) :=
  let sgncs : ℚ × List Char :=
    match cs with
    | '-' :: t => (-1, t)
    | '+' :: t => (1, t)
    | _ => (1, cs)
  let ip := sgncs.2.takeWhile Char.isDigit
  let cs2 := sgncs.2.dropWhile Char.isDigit
  let fprest : List Char × List Char :=
    match cs2 with
    | '.' :: t => (t.takeWhile Char.isDigit, t.dropWhile Char.isDigit)
    | _ => ([], cs2)
  if ip.isEmpty && fprest.1.isEmpty then none
  else some (sgncs.1 * ((natOfDigits ip : ℚ) + fracOfDigits fprest.1), fprest.2)

/-- JavaScript `parseFloat` applied to a scalar: leading whitespace is
skipped and the longest numeric prefix is taken; `none` models NaN
(non-string, non-number scalars coerce to the strings "undefined", "null",
"true", "false", none of which has a numeric prefix). -/
def parseFloat (v : JsVal) : Option ℚ :=
  match v with
  | .num q => some q
  | .str s => (parseDec (s.data.dropWhile isWS)).map Prod.fst
  | _ => none

/-- JavaScript `Number()` coercion of a scalar; `none` models NaN.  A string
must be numeric in full (after trimming) to convert; the empty string
converts to 0. -/
def jsNumber (v : JsVal) : Option ℚ :=
  match v with
  | .num q => some q
  | .undefVal => none
  | .jnull => some 0
  | .jbool b => some (if b then 1 else 0)
  | .str s =>
    let t := ((s.data.dropWhile isWS).reverse.dropWhile isWS).reverse
    if t.isEmpty then some 0
    else
      match parseDec t with
      | some (q, []) => some q
      | _ => none

/-- `parseFloat(v) || 0`: the parsed value, with NaN (and 0) collapsing
to 0. -/
def pf0 (v : JsVal) : ℚ := (parseFloat v).getD 0

/-- `Number(v) || 0`: the coerced value, with NaN (and 0) collapsing to 0. -/
def numOr0 (v : JsVal) : ℚ := (jsNumber v).getD 0

/-- `Number(v) || d`: the coerced value when it is a nonzero number,
otherwise the fallback `d`. -/
def numOrElse (v : JsVal) (d : ℚ) : ℚ :=
  match jsNumber v with
  | some q => if q == 0 then d else q
  | none => d

/-- Truthiness of a JS numeric coercion result: false for NaN and 0. -/
def numTruthy : Option ℚ → Bool
  | none => false
  | some q => q != 0

/- ===================== Sale Aggregator (POST /sales/add) ================ -/

/-- A catalog entry from data/products.json (fields used by the handler). -/
structure CatalogProduct where
  id : String
  name : String
deriving DecidableEq

/-- One raw entry of the normalized `products` list of a sale request.
Every field is an arbitrary scalar: form fields arrive as strings and may be
absent.  The `totalAmount` field is whatever line total a client may have
sent; the handler never reads it. -/
structure RawItem where
  productId : JsVal
  quantity : JsVal
  price : JsVal
  productName : JsVal
  totalAmount : JsVal
deriving DecidableEq

/-- A persisted sale line item (saleItemSchema). -/
structure SaleItem where
  productId : JsVal
  productName : JsVal
  quantity : ℚ
  price : ℚ
  totalAmount : ℚ
deriving DecidableEq

/-- A persisted multi-item sale document (saleSchema; customer/payment
fields are not involved in any claim and are omitted). -/
structure SaleDoc where
  items : List SaleItem
  subtotal : ℚ
  discount : ℚ
  tax : ℚ
  totalAmount : ℚ
deriving DecidableEq

/-- The handler's keep/drop test for one raw item, translated from
`if (!productIdVal || !quantityVal || !priceVal) continue;` with
`productIdVal = p.productId || p["productId"]`,
`quantityVal = parseFloat(p.quantity || p["quantity"] || 0)`,
`priceVal = parseFloat(p.price || p["price"] || 0)`
(`p.x` and `p["x"]` are the same access, kept to mirror the source). -/
def keepRaw (p : RawItem) : Bool :=
  truthy (jsOr p.productId p.productId)
    && numTruthy (parseFloat (jsOr p.quantity (jsOr p.quantity (.num 0))))
    && numTruthy (parseFloat (jsOr p.price (jsOr p.price (.num 0))))

/-- The sale item built from a kept raw item: catalog name resolution, then
`totalAmount = quantityVal * priceVal` recomputed from the coerced fields. -/
def mkSaleItem (catalog : List CatalogProduct) (p : RawItem) : SaleItem :=
  let pid := jsOr p.productId p.productId
  let qv := (parseFloat (jsOr p.quantity (jsOr p.quantity (.num 0)))).getD 0
  let pv := (parseFloat (jsOr p.price (jsOr p.price (.num 0)))).getD 0
  let mtch := catalog.find? (fun pc => jsStrictEqStr pc.id pid)
  let nm :=
    match mtch with
    | some pc => JsVal.str pc.name
    | none => jsOr p.productName (jsOr p.productName (.str "Product"))
  ⟨pid, nm, qv, pv, qv * pv⟩

/-- The item loop of the handler: `items.push(...)` and `subtotal +=
totalAmount` for every kept entry, dropped entries skipped by `continue`. -/
def saleLoop (catalog : List CatalogProduct) :
    List RawItem → List SaleItem → ℚ → List SaleItem × ℚ
  | [], acc, sub => (acc, sub)
  | p :: rest, acc, sub =>
    if keepRaw p then
      saleLoop catalog rest (acc ++ [mkSaleItem catalog p])
        (sub + (mkSaleItem catalog p).totalAmount)
    else saleLoop catalog rest acc sub

/-- The POST /sales/add computation: loop over the normalized item list,
then `disc = parseFloat(discount) || 0`, `tx = parseFloat(tax) || 0`,
`totalAmount = Math.max(0, subtotal - disc + tx)`; the resulting document
is saved as-is. -/
def addSale (catalog : List CatalogProduct) (normalized : List RawItem)
    (discount tax : JsVal) : SaleDoc :=
  let itemsSub := saleLoop catalog normalized [] 0
  let disc := pf0 discount
  let tx := pf0 tax
  ⟨itemsSub.1, itemsSub.2, disc, tx, max 0 (itemsSub.2 - disc + tx)⟩

/-- Replace the client-supplied line total of a raw item (used to state that
the handler ignores it). -/
def setClientTotal (v : JsVal) (p : RawItem) : RawItem :=
  { p with totalAmount := v }

/- ===================== Invoice Renderer (handleInvoice) ================= -/

/-- A persisted line item as read back for rendering; fields are arbitrary
stored scalars, since the renderer defends against non-numeric data. -/
structure RenderItem where
  quantity : JsVal
  price : JsVal
  totalAmount : JsVal
deriving DecidableEq

/-- A multi-item sale as read back for rendering. -/
structure LoadedSale where
  items : List RenderItem
  subtotal : JsVal
  discount : JsVal
  tax : JsVal
  totalAmount : JsVal
deriving DecidableEq

/-- A simple sale as read back for rendering. -/
structure SimpleSaleDoc where
  amount : JsVal
deriving DecidableEq

/-- The numeric content of a rendered invoice: line totals plus summary for
the itemized branch, the single amount for the simple branch. -/
inductive InvoiceOut where
  | itemized : List ℚ → ℚ → ℚ → ℚ → ℚ → InvoiceOut
  | simpleInv : ℚ → InvoiceOut
deriving DecidableEq

/-- The per-line total printed by the items table:
`Number.isFinite(Number(item.totalAmount)) ? Number(item.totalAmount)
 : qty * price` with `qty = Number(item.quantity) || 0` and
`price = Number(item.price) || 0`. -/
def renderLineTotal (it : RenderItem) : ℚ :=
  let qty := numOr0 it.quantity
  let price := numOr0 it.price
  match jsNumber it.totalAmount with
  | some t => t
  | none => qty * price

/-- The branch structure of handleInvoice after the two lookups
(`simple = SimpleSale.findOne(...)`, `sale = simple || Sale.findOne(...)`),
with the HTTP status of a failure as the error value:
no record in either collection gives 404; the itemized branch requires
`!simple && sale.items.length > 0`; every other case falls into the
simple-sale branch, which reads `simple.amount` — a TypeError (caught and
turned into 500) when `simple` is null. -/
def handleInvoice (simple : Option SimpleSaleDoc) (multi : Option LoadedSale) :
    Except Nat InvoiceOut :=
  match simple with
  | some s => .ok (.simpleInv (numOr0 s.amount))
  | none =>
    match multi with
    | none => .error 404
    | some ms =>
      if 0 < ms.items.length then
        let sub := numOr0 ms.subtotal
        let disc := numOr0 ms.discount
        let tx := numOr0 ms.tax
        let tot := numOrElse ms.totalAmount (max 0 (sub - disc + tx))
        .ok (.itemized (ms.items.map renderLineTotal) sub disc tx tot)
      else .error 500

/-- Read a freshly saved sale document back for rendering (stored numbers
come back as numbers). -/
def loadSale (s : SaleDoc) : LoadedSale :=
  ⟨s.items.map (fun it => ⟨.num it.quantity, .num it.price, .num it.totalAmount⟩),
   .num s.subtotal, .num s.discount, .num s.tax, .num s.totalAmount⟩

/- ================= Payroll Engine (POST /employees/salary/calculate) ==== -/

/-- A calendar date at day granularity (attendance dates and advance
creation timestamps are compared against a whole-month window, whose end —
moment's endOf month — covers the last day entirely). -/
structure MDate where
  year : Nat
  month : Nat
  day : Nat
deriving DecidableEq

/-- Chronological comparison of dates. -/
def dateLE (a b : MDate) : Bool :=
  decide (a.year < b.year)
    || (a.year == b.year
        && (decide (a.month < b.month)
            || (a.month == b.month && decide (a.day ≤ b.day))))

/-- Gregorian leap-year test. -/
def isLeapYear (y : Nat) : Bool :=
  (y % 4 == 0 && y % 100 != 0) || y % 400 == 0

/-- Day count of a Gregorian month; the semantics of the external
`moment(...).daysInMonth()` used at src/server.js:1011 (moment implements
the standard Gregorian rules).  Only 1 ≤ m ≤ 12 is meaningful. -/
def daysInMonth (y m : Nat) : Nat :=
  if m == 2 then (if isLeapYear y then 29 else 28)
  else if m == 4 || m == 6 || m == 9 || m == 11 then 30
  else 31

/-- Membership of a date in the inclusive [startOf month, endOf month]
window for (year, month). -/
def inWindow (y m : Nat) (d : MDate) : Bool :=
  dateLE ⟨y, m, 1⟩ d && dateLE d ⟨y, m, daysInMonth y m⟩

/-- Attendance status (attendanceSchema enum). -/
inductive AttStatus where
  | present : AttStatus
  | absent : AttStatus
  | halfDay : AttStatus
deriving DecidableEq

/-- An employee document (fields used by the payroll batch). -/
structure Employee where
  id : Nat
  basicSalary : ℚ
  isActive : Bool
deriving DecidableEq

/-- An attendance document. -/
structure AttendanceRec where
  employeeId : Nat
  date : MDate
  status : AttStatus
deriving DecidableEq

/-- An advance document; `createdAt` is the creation timestamp the batch
queries on, `deductedDate` is the timestamp set when it is deducted. -/
structure AdvanceRec where
  id : Nat
  employeeId : Nat
  amount : ℚ
  isDeducted : Bool
  deductedDate : Option Nat
  createdAt : MDate
deriving DecidableEq

/-- A salary document (salarySchema fields the batch writes; status is
always created as the default "pending" and is not modelled). -/
structure SalaryRec where
  employeeId : Nat
  month : Nat
  year : Nat
  basicSalary : ℚ
  presentDays : Nat
  absentDays : Nat
  halfDays : Nat
  totalWorkingDays : Nat
  calculatedSalary : ℚ
  advanceDeductions : ℚ
  netSalary : ℚ
deriving DecidableEq

/-- The document-store state the payroll batch reads and writes. -/
structure DB where
  employees : List Employee
  attendance : List AttendanceRec
  advances : List AdvanceRec
  salaries : List SalaryRec
deriving DecidableEq

/-- `Salary.findOne({employeeId, month, year})` produced a document. -/
def hasSalary (l : List SalaryRec) (eid m y : Nat) : Bool :=
  l.any (fun s => s.employeeId == eid && s.month == m && s.year == y)

/-- Number of salary documents with the given (employeeId, month, year). -/
def countSalary (l : List SalaryRec) (eid m y : Nat) : Nat :=
  l.countP (fun s => s.employeeId == eid && s.month == m && s.year == y)

/-- The attendance query of the batch: this employee's records dated inside
the month window. -/
def monthAttendance (m y : Nat) (db : DB) (e : Employee) : List AttendanceRec :=
  db.attendance.filter (fun a => a.employeeId == e.id && inWindow y m a.date)

/-- Count of the month's attendance records with a given status. -/
def countStatus (m y : Nat) (db : DB) (e : Employee) (st : AttStatus) : Nat :=
  ((monthAttendance m y db e).filter (fun a => a.status == st)).length

/-- The advance query predicate of the batch: this employee's advances with
isDeducted = false created inside the month window. -/
def collectsAdvance (m y : Nat) (e : Employee) (a : AdvanceRec) : Bool :=
  a.employeeId == e.id && a.isDeducted == false && inWindow y m a.createdAt

/-- The advances collected for deduction by the batch. -/
def collectedAdvances (m y : Nat) (db : DB) (e : Employee) : List AdvanceRec :=
  db.advances.filter (collectsAdvance m y e)

/-- The salary document the batch builds for one employee
(src/server.js:1007-1040). -/
def salaryRecordFor (m y : Nat) (db : DB) (e : Employee) : SalaryRec :=
  ⟨e.id, m, y, e.basicSalary,
   countStatus m y db e .present,
   countStatus m y db e .absent,
   countStatus m y db e .halfDay,
   daysInMonth y m,
   ((countStatus m y db e .present : ℚ)
      + (countStatus m y db e .halfDay : ℚ) * (1 / 2))
     * (e.basicSalary / (daysInMonth y m : ℚ)),
   ((collectedAdvances m y db e).map AdvanceRec.amount).sum,
   max 0
     (((countStatus m y db e .present : ℚ)
         + (countStatus m y db e .halfDay : ℚ) * (1 / 2))
        * (e.basicSalary / (daysInMonth y m : ℚ))
      - ((collectedAdvances m y db e).map AdvanceRec.amount).sum)⟩

/-- `Advance.updateMany({_id: {$in: ids}}, {isDeducted: true, deductedDate:
now})` over the collected ids. -/
def markAdvances (m y now : Nat) (db : DB) (e : Employee) : List AdvanceRec :=
  let ids := (collectedAdvances m y db e).map AdvanceRec.id
  db.advances.map (fun a =>
    if ids.contains a.id then { a with isDeducted := true, deductedDate := some now }
    else a)

/-- One loop iteration of the payroll batch for employee `e`, with the
fallibility of `salary.save()` made explicit: `ok = false` means the save
throws, in which case the handler's catch fires before `updateMany` runs,
leaving the store untouched.  The Bool of the result records whether the
iteration completed without throwing. -/
def processEmployeeAttempt (ok : Bool) (m y now : Nat) (db : DB)
    (e : Employee) : DB × Bool :=
  if hasSalary db.salaries e.id m y then (db, true)
  else if ok then
    ({ db with
        salaries := db.salaries ++ [salaryRecordFor m y db e],
        advances := markAdvances m y now db e }, true)
  else (db, false)

/-- One loop iteration on the success path. -/
def processOne (m y now : Nat) (db : DB) (e : Employee) : DB :=
  (processEmployeeAttempt true m y now db e).1

/-- The whole POST /employees/salary/calculate batch: iterate the loop body
over `Employee.find({isActive: true})`. -/
def calculateSalaries (m y now : Nat) (db : DB) : DB :=
  (db.employees.filter (fun e => e.isActive)).foldl
    (fun d e => processOne m y now d e) db

/- ===================== Concrete scenario data ========================== -/

/-- The catalog seeded by the server into data/products.json. -/
def pedhaCatalog : List CatalogProduct :=
  [⟨"pedha-1", "Kesar Pedha"⟩, ⟨"pedha-2", "Chocolate Pedha"⟩,
   ⟨"pedha-3", "Plain Pedha"⟩]

/-- Scenario raw item: qty 2 at price 200. -/
def scRaw1 : RawItem := ⟨.str "pedha-1", .num 2, .num 200, .undefVal, .undefVal⟩

/-- Scenario raw item: qty 1 at price 250. -/
def scRaw2 : RawItem := ⟨.str "pedha-2", .num 1, .num 250, .undefVal, .undefVal⟩

/-- Scenario raw item with `quantity` missing. -/
def scRawNoQty : RawItem := ⟨.str "pedha-2", .undefVal, .num 250, .undefVal, .undefVal⟩

/-- Scenario sale: the two valid items with discount 50 and tax 10. -/
def scSale : SaleDoc := addSale pedhaCatalog [scRaw1, scRaw2] (.num 50) (.num 10)

/-- Scenario employee: basic monthly salary 3000, active. -/
def scEmp : Employee := ⟨1, 3000, true⟩

/-- Scenario attendance for June 2023 (a 30-day month): 20 present days,
4 half-days, 6 absent days. -/
def scAtt : List AttendanceRec :=
  ((List.range 20).map (fun i => ⟨1, ⟨2023, 6, i + 1⟩, .present⟩))
    ++ ((List.range 4).map (fun i => ⟨1, ⟨2023, 6, 21 + i⟩, .halfDay⟩))
    ++ ((List.range 6).map (fun i => ⟨1, ⟨2023, 6, 25 + i⟩, .absent⟩))

/-- Scenario store with no advances. -/
def scDB : DB := ⟨[scEmp], scAtt, [], []⟩

/-- Scenario store with one undeducted advance of 2500 created in the
month. -/
def scDB2 : DB := ⟨[scEmp], scAtt, [⟨10, 1, 2500, false, none, ⟨2023, 6, 15⟩⟩], []⟩

/-- Scenario store for the advance-marking claim: one collectable advance,
one already-deducted advance, one advance of another employee. -/
def scDB4 : DB :=
  ⟨[scEmp], scAtt,
   [⟨10, 1, 500, false, none, ⟨2023, 6, 10⟩⟩,
    ⟨11, 1, 300, true, some 7, ⟨2023, 6, 5⟩⟩,
    ⟨12, 2, 100, false, none, ⟨2023, 6, 2⟩⟩], []⟩

/-- An empty-items multi-item sale, as the aggregator persists it. -/
def emptyItemsSale : SaleDoc := addSale pedhaCatalog [] .undefVal .undefVal

/-- A rendered line whose stored totalAmount does not coerce to a number. -/
def badTotalItem : RenderItem := ⟨.num 2, .num 3, .undefVal⟩

/-- A rendered line whose stored totalAmount is the number 5. -/
def goodTotalItem : RenderItem := ⟨.num 0, .num 0, .num 5⟩

/-- A loaded one-line multi-item sale used to instantiate the renderer. -/
def oneLineSale : LoadedSale :=
  ⟨[badTotalItem, goodTotalItem], .num 6, .num 0, .num 0, .num 6⟩

/- ===================== Statement abbreviations ========================= -/

/-- The salary-formula contract of one created salary document: the batch
appends exactly one record whose day counts are the status counts of the
month's attendance and whose calculatedSalary is
(presentDays + halfDays/2) * (basicSalary / daysInMonth). -/
def salaryFormulaOK (m y now : Nat) (db : DB) (e : Employee) : Prop :=
  ∃ sal : SalaryRec,
    (processOne m y now db e).salaries = db.salaries ++ [sal]
    ∧ sal.presentDays = countStatus m y db e .present
    ∧ sal.absentDays = countStatus m y db e .absent
    ∧ sal.halfDays = countStatus m y db e .halfDay
    ∧ sal.basicSalary = e.basicSalary
    ∧ sal.calculatedSalary
        = ((countStatus m y db e .present : ℚ)
            + (countStatus m y db e .halfDay : ℚ) * (1 / 2))
          * (e.basicSalary / (daysInMonth y m : ℚ))

/-- The net-salary contract of one created salary document: deductions are
the sum of the collected advances, netSalary clamps at zero and is never
negative. -/
def netSalaryOK (m y now : Nat) (db : DB) (e : Employee) : Prop :=
  ∃ sal : SalaryRec,
    (processOne m y now db e).salaries = db.salaries ++ [sal]
    ∧ sal.advanceDeductions
        = ((db.advances.filter (collectsAdvance m y e)).map AdvanceRec.amount).sum
    ∧ sal.netSalary = max 0 (sal.calculatedSalary - sal.advanceDeductions)
    ∧ 0 ≤ sal.netSalary

/-- The working-days contract of one created salary document: the persisted
totalWorkingDays is the Gregorian day count and is the denominator of the
daily rate. -/
def workingDaysOK (m y now : Nat) (db : DB) (e : Employee) : Prop :=
  ∃ sal : SalaryRec,
    (processOne m y now db e).salaries = db.salaries ++ [sal]
    ∧ sal.totalWorkingDays = daysInMonth y m
    ∧ sal.calculatedSalary
        = ((sal.presentDays : ℚ) + (sal.halfDays : ℚ) * (1 / 2))
          * (e.basicSalary / (sal.totalWorkingDays : ℚ))

/-- The advance-marking contract of one batch iteration, covering the three
cases: salary save fails (nothing changes), salary already exists (nothing
changes), and successful creation (an advance is newly marked deducted with
a deductedDate exactly when the collection predicate holds, and the
persisted advanceDeductions is the sum over exactly those advances). -/
def advanceMarkOK (m y now : Nat) (db : DB) (e : Employee) : Prop :=
  (hasSalary db.salaries e.id m y = false →
    processEmployeeAttempt false m y now db e = (db, false))
  ∧ (hasSalary db.salaries e.id m y = true →
      processEmployeeAttempt true m y now db e = (db, true)
      ∧ processEmployeeAttempt false m y now db e = (db, true))
  ∧ (hasSalary db.salaries e.id m y = false →
      (processEmployeeAttempt true m y now db e).1.advances
        = db.advances.map (fun a =>
            if collectsAdvance m y e a then
              { a with isDeducted := true, deductedDate := some now }
            else a)
      ∧ ∃ sal : SalaryRec,
          (processEmployeeAttempt true m y now db e).1.salaries
            = db.salaries ++ [sal]
          ∧ sal.advanceDeductions
              = ((db.advances.filter (collectsAdvance m y e)).map
                  AdvanceRec.amount).sum)

/- ===================== Helper lemmas =================================== -/

lemma saleLoop_eq (catalog : List CatalogProduct) :
    ∀ (ps : List RawItem) (acc : List SaleItem) (sub : ℚ),
      saleLoop catalog ps acc sub
        = (acc ++ (ps.filter keepRaw).map (mkSaleItem catalog),
           sub + (((ps.filter keepRaw).map (mkSaleItem catalog)).map
                    SaleItem.totalAmount).sum) := by
  intro ps
  induction ps with
  | nil => intro acc sub; simp [saleLoop]
  | cons p rest ih =>
    intro acc sub
    by_cases h : keepRaw p = true
    · simp [saleLoop, h, ih, List.filter_cons, add_assoc]
    · have h2 : keepRaw p = false := by revert h; cases keepRaw p <;> simp
      simp [saleLoop, h2, ih, List.filter_cons]

lemma keepRaw_setClientTotal (v : JsVal) (p : RawItem) :
    keepRaw (setClientTotal v p) = keepRaw p := rfl

lemma mkSaleItem_setClientTotal (catalog : List CatalogProduct) (v : JsVal)
    (p : RawItem) :
    mkSaleItem catalog (setClientTotal v p) = mkSaleItem catalog p := rfl

lemma items_setClientTotal (catalog : List CatalogProduct) (v : JsVal)
    (raw : List RawItem) :
    ((raw.map (setClientTotal v)).filter keepRaw).map (mkSaleItem catalog)
      = (raw.filter keepRaw).map (mkSaleItem catalog) := by
  rw [List.filter_map, List.map_map]
  have h1 : (keepRaw ∘ setClientTotal v) = keepRaw := funext fun p => rfl
  have h2 : (mkSaleItem catalog ∘ setClientTotal v) = mkSaleItem catalog :=
    funext fun p => rfl
  rw [h1, h2]

lemma jsOr_self (a : JsVal) : jsOr a a = a := by
  unfold jsOr; split <;> rfl

lemma jsOr_absorb (a b : JsVal) : jsOr a (jsOr a b) = jsOr a b := by
  unfold jsOr
  by_cases h : truthy a = true <;> simp [h]

/- ===================== Claim theorems: Sale Aggregator ================= -/

/-- C6: for every multi-item sale created through the Sale Aggregator, the
persisted totalAmount equals max(0, subtotal - discount + tax), with
discount and tax taken as 0 when absent (undefined) or non-numeric; the
scenario items qty 2 x 200 and qty 1 x 250 with discount 50 and tax 10
yield subtotal 650 and totalAmount 610. -/
theorem sale_totalAmount_formula (catalog : List CatalogProduct)
    (raw : List RawItem) (d t : JsVal) :
    (addSale catalog raw d t).totalAmount
      = max 0 ((addSale catalog raw d t).subtotal - pf0 d + pf0 t)
    ∧ pf0 .undefVal = 0
    ∧ pf0 (.str "abc") = 0
    ∧ scSale.subtotal = 650
    ∧ scSale.totalAmount = 610 := by
  have k1 : keepRaw scRaw1 = true := by decide
  have k2 : keepRaw scRaw2 = true := by decide
  have hsub : scSale.subtotal = 650 := by
    simp only [scSale, addSale, saleLoop_eq, List.filter_cons, k1, k2]
    simp only [if_true, List.filter_nil, List.map_cons, List.map_nil,
      List.nil_append]
    norm_num [mkSaleItem, scRaw1, scRaw2, jsOr, truthy, parseFloat]
  refine ⟨rfl, rfl, rfl, hsub, ?_⟩
  have htot : scSale.totalAmount
      = max 0 (scSale.subtotal - pf0 (.num 50) + pf0 (.num 10)) := rfl
  rw [htot, hsub]
  norm_num [pf0, parseFloat]

/-- C7: every kept item's stored line total is recomputed as quantity times
price (a client-supplied line total is ignored), and the persisted subtotal
is the sum of the kept line totals. -/
theorem sale_line_totals_recomputed (catalog : List CatalogProduct)
    (raw : List RawItem) (d t v : JsVal) :
    ((addSale catalog raw d t).items.all
        (fun it => it.totalAmount == it.quantity * it.price)) = true
    ∧ (addSale catalog raw d t).subtotal
        = ((addSale catalog raw d t).items.map SaleItem.totalAmount).sum
    ∧ addSale catalog (raw.map (setClientTotal v)) d t = addSale catalog raw d t := by
  refine ⟨?_, ?_, ?_⟩
  · simp only [addSale, saleLoop_eq, List.nil_append, List.all_eq_true]
    intro it hit
    obtain ⟨p, hp, rfl⟩ := List.mem_map.mp hit
    simp [mkSaleItem]
  · simp only [addSale, saleLoop_eq, List.nil_append, zero_add]
  · simp only [addSale, saleLoop_eq, items_setClientTotal, List.nil_append]

/-- C8: a raw item is silently dropped exactly when its productId is falsy
or its quantity or price coerces to NaN or a falsy number; a 2-item input
with one invalid item persists exactly the one valid item. -/
theorem sale_item_drop_rule (catalog : List CatalogProduct)
    (raw : List RawItem) (d t : JsVal) (p : RawItem) :
    (addSale catalog raw d t).items
      = (raw.filter keepRaw).map (mkSaleItem catalog)
    ∧ keepRaw p
        = (truthy p.productId
            && numTruthy (parseFloat (jsOr p.quantity (.num 0)))
            && numTruthy (parseFloat (jsOr p.price (.num 0))))
    ∧ numTruthy none = false
    ∧ numTruthy (some 0) = false
    ∧ keepRaw scRawNoQty = false
    ∧ (addSale pedhaCatalog [scRaw1, scRawNoQty] .undefVal .undefVal).items
        = [mkSaleItem pedhaCatalog scRaw1] := by
  have k1 : keepRaw scRaw1 = true := by decide
  have kn : keepRaw scRawNoQty = false := by decide
  refine ⟨?_, ?_, ?_, ?_, kn, ?_⟩
  · simp only [addSale, saleLoop_eq, List.nil_append]
  · unfold keepRaw
    rw [jsOr_self, jsOr_absorb, jsOr_absorb]
  · rfl
  · decide
  · simp only [addSale, saleLoop_eq, List.filter_cons, k1, kn]
    simp [List.filter_nil]

/- ===================== Claim theorems: Invoice Renderer ================ -/

/-- C9: when a persisted line's totalAmount does not coerce to a finite
number the rendered line total is recomputed as coerced quantity times
coerced price (each defaulting to 0); otherwise the persisted totalAmount
is displayed; the itemized branch of the invoice handler renders every
line through this rule. -/
theorem invoice_line_total_fallback (it jt : RenderItem) (t : ℚ)
    (ls : LoadedSale)
    (h1 : jsNumber it.totalAmount = none)
    (h2 : jsNumber jt.totalAmount = some t)
    (h3 : 0 < ls.items.length) :
    renderLineTotal it = numOr0 it.quantity * numOr0 it.price
    ∧ renderLineTotal jt = t
    ∧ ∃ s d tx tot, handleInvoice none (some ls)
        = .ok (.itemized (ls.items.map renderLineTotal) s d tx tot) := by
  refine ⟨?_, ?_, ?_⟩
  · simp [renderLineTotal, h1]
  · simp [renderLineTotal, h2]
  · exact ⟨numOr0 ls.subtotal, numOr0 ls.discount, numOr0 ls.tax,
      numOrElse ls.totalAmount
        (max 0 (numOr0 ls.subtotal - numOr0 ls.discount + numOr0 ls.tax)),
      by simp [handleInvoice, h3]⟩

/-- Witness for C9 at concrete inputs. -/
theorem invoice_line_total_fallback_witness :
    (jsNumber badTotalItem.totalAmount = none
      ∧ jsNumber goodTotalItem.totalAmount = some 5
      ∧ 0 < oneLineSale.items.length)
    ∧ renderLineTotal badTotalItem
        = numOr0 badTotalItem.quantity * numOr0 badTotalItem.price :=
  ⟨⟨rfl, rfl, by decide⟩,
   (invoice_line_total_fallback badTotalItem goodTotalItem 5 oneLineSale
      rfl rfl (by decide)).1⟩

/-- C10: an empty-items multi-item sale is accepted by the aggregator and
persisted with subtotal 0, but requesting its invoice routes into the
simple-sale branch with a null simple sale, so the request fails with a
500 error instead of producing a document. -/
theorem empty_items_sale_invoice_500 :
    emptyItemsSale.items = [] ∧ emptyItemsSale.subtotal = 0
    ∧ handleInvoice none (some (loadSale emptyItemsSale)) = .error 500 :=
  ⟨rfl, rfl, rfl⟩

/- ===================== Payroll helper lemmas =========================== -/

lemma processOne_skip (m y now : Nat) (db : DB) (e : Employee)
    (h : hasSalary db.salaries e.id m y = true) :
    processOne m y now db e = db := by
  simp [processOne, processEmployeeAttempt, h]

lemma processOne_create (m y now : Nat) (db : DB) (e : Employee)
    (h : hasSalary db.salaries e.id m y = false) :
    processOne m y now db e
      = { db with
          salaries := db.salaries ++ [salaryRecordFor m y db e],
          advances := markAdvances m y now db e } := by
  simp [processOne, processEmployeeAttempt, h]

lemma processOne_employees (m y now : Nat) (db : DB) (e : Employee) :
    (processOne m y now db e).employees = db.employees := by
  cases hb : hasSalary db.salaries e.id m y
  · rw [processOne_create m y now db e hb]
  · rw [processOne_skip m y now db e hb]

lemma processOne_hasSalary_mono (m y now : Nat) (db : DB) (e : Employee)
    (eid mm yy : Nat) (h : hasSalary db.salaries eid mm yy = true) :
    hasSalary (processOne m y now db e).salaries eid mm yy = true := by
  cases hb : hasSalary db.salaries e.id m y
  · rw [processOne_create m y now db e hb]
    simp only [hasSalary, List.any_append] at h ⊢
    simp [h]
  · rw [processOne_skip m y now db e hb]; exact h

lemma processOne_hasSalary_self (m y now : Nat) (db : DB) (e : Employee) :
    hasSalary (processOne m y now db e).salaries e.id m y = true := by
  cases hb : hasSalary db.salaries e.id m y
  · rw [processOne_create m y now db e hb]
    simp [hasSalary, List.any_append, salaryRecordFor]
  · rw [processOne_skip m y now db e hb]; exact hb

lemma foldl_employees (m y now : Nat) :
    ∀ (l : List Employee) (db : DB),
      (List.foldl (fun d f => processOne m y now d f) db l).employees
        = db.employees := by
  intro l
  induction l with
  | nil => intro db; rfl
  | cons f t ih =>
    intro db
    rw [List.foldl_cons, ih, processOne_employees]

lemma foldl_hasSalary_mono (m y now : Nat) :
    ∀ (l : List Employee) (db : DB) (eid : Nat),
      hasSalary db.salaries eid m y = true →
      hasSalary ((List.foldl (fun d f => processOne m y now d f) db l)).salaries
        eid m y = true := by
  intro l
  induction l with
  | nil => intro db eid h; exact h
  | cons f t ih =>
    intro db eid h
    rw [List.foldl_cons]
    exact ih _ _ (processOne_hasSalary_mono m y now db f eid m y h)

lemma foldl_processes (m y now : Nat) :
    ∀ (l : List Employee) (db : DB) (e : Employee), e ∈ l →
      hasSalary ((List.foldl (fun d f => processOne m y now d f) db l)).salaries
        e.id m y = true := by
  intro l
  induction l with
  | nil => intro db e he; simp at he
  | cons f t ih =>
    intro db e he
    rw [List.foldl_cons]
    rcases List.mem_cons.mp he with rfl | ht
    · exact foldl_hasSalary_mono m y now t _ e.id
        (processOne_hasSalary_self m y now db e)
    · exact ih _ e ht

lemma foldl_noop (m y now : Nat) :
    ∀ (l : List Employee) (db : DB),
      (∀ e ∈ l, hasSalary db.salaries e.id m y = true) →
      List.foldl (fun d f => processOne m y now d f) db l = db := by
  intro l
  induction l with
  | nil => intro db _; rfl
  | cons f t ih =>
    intro db h
    rw [List.foldl_cons, processOne_skip m y now db f (h f (List.mem_cons_self f t))]
    exact ih db (fun e he => h e (List.mem_cons_of_mem f he))

lemma hasSalary_false_count (l : List SalaryRec) (eid mm yy : Nat)
    (h : hasSalary l eid mm yy = false) : countSalary l eid mm yy = 0 := by
  rw [countSalary, List.countP_eq_zero]
  intro a ha hpa
  have : hasSalary l eid mm yy = true := by
    simp only [hasSalary, List.any_eq_true]
    exact ⟨a, ha, hpa⟩
  rw [h] at this
  exact Bool.false_ne_true this

lemma hasSalary_true_count (l : List SalaryRec) (eid mm yy : Nat)
    (h : hasSalary l eid mm yy = true) : 0 < countSalary l eid mm yy := by
  rw [countSalary, List.countP_pos_iff]
  simpa only [hasSalary, List.any_eq_true] using h

lemma processOne_count_other (m y now : Nat) (db : DB) (e : Employee)
    (eid : Nat) (hne : e.id ≠ eid) :
    countSalary (processOne m y now db e).salaries eid m y
      = countSalary db.salaries eid m y := by
  cases hb : hasSalary db.salaries e.id m y
  · rw [processOne_create m y now db e hb]
    simp only [countSalary, List.countP_append, List.countP_cons, List.countP_nil]
    have hfa : ((salaryRecordFor m y db e).employeeId == eid) = false := by
      simpa [salaryRecordFor] using hne
    simp [hfa]
  · rw [processOne_skip m y now db e hb]

lemma processOne_count_self (m y now : Nat) (db : DB) (e : Employee)
    (hle : countSalary db.salaries e.id m y ≤ 1) :
    countSalary (processOne m y now db e).salaries e.id m y = 1 := by
  cases hb : hasSalary db.salaries e.id m y
  · rw [processOne_create m y now db e hb]
    simp only [countSalary, List.countP_append, List.countP_cons, List.countP_nil]
    have h0 : countSalary db.salaries e.id m y = 0 :=
      hasSalary_false_count _ _ _ _ hb
    rw [countSalary] at h0
    simp [h0, salaryRecordFor]
  · rw [processOne_skip m y now db e hb]
    have := hasSalary_true_count _ _ _ _ hb
    omega

lemma foldl_count_avoid (m y now : Nat) :
    ∀ (l : List Employee) (db : DB) (eid : Nat),
      (∀ f ∈ l, f.id ≠ eid) →
      countSalary ((List.foldl (fun d f => processOne m y now d f) db l)).salaries
          eid m y
        = countSalary db.salaries eid m y := by
  intro l
  induction l with
  | nil => intro db eid _; rfl
  | cons f t ih =>
    intro db eid h
    rw [List.foldl_cons, ih _ _ (fun g hg => h g (List.mem_cons_of_mem f hg)),
      processOne_count_other m y now db f eid (h f (List.mem_cons_self f t))]

lemma count_after_run (m y now : Nat) (db : DB) (e : Employee)
    (hle : countSalary db.salaries e.id m y ≤ 1)
    (he : e ∈ db.employees.filter (fun e => e.isActive))
    (hnd : ((db.employees.filter (fun e => e.isActive)).map Employee.id).Nodup) :
    countSalary (calculateSalaries m y now db).salaries e.id m y = 1 := by
  obtain ⟨l1, l2, hsplit⟩ := List.append_of_mem he
  have hnd2 := hnd
  rw [hsplit, List.map_append, List.map_cons] at hnd2
  rcases List.nodup_append.mp hnd2 with ⟨hn1, hn2, hdisj⟩
  have he1 : ∀ f ∈ l1, f.id ≠ e.id := by
    intro f hf heq
    exact hdisj (heq ▸ List.mem_map_of_mem Employee.id hf)
      (List.mem_cons_self e.id (l2.map Employee.id))
  have he2 : ∀ f ∈ l2, f.id ≠ e.id := by
    intro f hf heq
    exact (List.nodup_cons.mp hn2).1 (heq ▸ List.mem_map_of_mem Employee.id hf)
  rw [calculateSalaries, hsplit, List.foldl_append, List.foldl_cons]
  rw [foldl_count_avoid m y now l2 _ e.id he2]
  rw [processOne_count_self m y now _ e
    (by rw [foldl_count_avoid m y now l1 db e.id he1]; exact hle)]

lemma markAdvances_eq (m y now : Nat) (db : DB) (e : Employee)
    (hadv : (db.advances.map AdvanceRec.id).Nodup) :
    markAdvances m y now db e
      = db.advances.map (fun a =>
          if collectsAdvance m y e a then
            { a with isDeducted := true, deductedDate := some now }
          else a) := by
  unfold markAdvances
  apply List.map_congr_left
  intro a ha
  have hiff : ((collectedAdvances m y db e).map AdvanceRec.id).contains a.id
      = collectsAdvance m y e a := by
    by_cases hca : collectsAdvance m y e a = true
    · rw [hca]
      exact List.elem_iff.mpr
        (List.mem_map_of_mem AdvanceRec.id (List.mem_filter.mpr ⟨ha, hca⟩))
    · have hcf : collectsAdvance m y e a = false := by
        revert hca; cases collectsAdvance m y e a <;> simp
      rw [hcf]
      refine Bool.eq_false_iff.mpr (fun hc => ?_)
      obtain ⟨b, hb, hbid⟩ := List.mem_map.mp (List.elem_iff.mp hc)
      have hbad : b ∈ db.advances := List.mem_of_mem_filter hb
      have hbcol : collectsAdvance m y e b = true := List.of_mem_filter hb
      have hba : b = a := List.inj_on_of_nodup_map hadv hbad ha hbid
      rw [hba] at hbcol
      rw [hbcol] at hcf
      simp at hcf
  rw [hiff]

/- ===================== Claim theorems: Payroll Engine ================== -/

/-- C1: an employee with an existing Salary record for (employeeId, month,
year) is skipped entirely, so a second batch run for the same period is a
no-op, every active employee ends with exactly one Salary record for the
period, and no key ever holds more than one record. -/
theorem payroll_batch_idempotent (m y n1 n2 : Nat) (db : DB)
    (hids : (db.employees.map Employee.id).Nodup)
    (hcount : ∀ eid, countSalary db.salaries eid m y ≤ 1) :
    calculateSalaries m y n2 (calculateSalaries m y n1 db)
      = calculateSalaries m y n1 db
    ∧ ((db.employees.filter (fun e => e.isActive)).all
        (fun e => countSalary (calculateSalaries m y n1 db).salaries e.id m y
                    == 1)) = true
    ∧ (∀ eid, countSalary (calculateSalaries m y n1 db).salaries eid m y ≤ 1)
    ∧ ((db.employees.filter (fun e => hasSalary db.salaries e.id m y)).all
        (fun e => decide (processOne m y n1 db e = db))) = true := by
  have hnd : ((db.employees.filter (fun e => e.isActive)).map Employee.id).Nodup :=
    hids.sublist (List.Sublist.map Employee.id (List.filter_sublist db.employees))
  refine ⟨?_, ?_, ?_, ?_⟩
  · simp only [calculateSalaries]
    rw [foldl_employees m y n1 _ db]
    exact foldl_noop m y n2 _ _
      (fun e he => foldl_processes m y n1 _ db e he)
  · rw [List.all_eq_true]
    intro e he
    rw [count_after_run m y n1 db e (hcount e.id) he hnd]
    rfl
  · intro eid
    by_cases hex : ∃ e, e ∈ db.employees.filter (fun e => e.isActive) ∧ e.id = eid
    · obtain ⟨e, he, rfl⟩ := hex
      rw [count_after_run m y n1 db e (hcount e.id) he hnd]
    · push_neg at hex
      rw [calculateSalaries, foldl_count_avoid m y n1 _ db eid hex]
      exact hcount eid
  · rw [List.all_eq_true]
    intro e he
    rw [processOne_skip m y n1 db e (List.mem_filter.mp he).2]
    simp

/-- Witness for C1 at the concrete scenario store. -/
theorem payroll_batch_idempotent_witness :
    ((scDB.employees.map Employee.id).Nodup
      ∧ ∀ eid, countSalary scDB.salaries eid 6 2023 ≤ 1)
    ∧ calculateSalaries 6 2023 1 (calculateSalaries 6 2023 0 scDB)
        = calculateSalaries 6 2023 0 scDB :=
  ⟨⟨by decide, fun eid => by simp [scDB, countSalary]⟩,
   (payroll_batch_idempotent 6 2023 0 1 scDB (by decide)
      (fun eid => by simp [scDB, countSalary])).1⟩

/-- C2: the persisted calculatedSalary equals (presentDays + halfDays/2) *
(basicSalary / totalWorkingDays) with the day counts taken from the month's
attendance records by status (half-days not counted as present days), with
no rounding; the scenario basicSalary 3000, 30-day month, 20 present days,
4 half-days, 6 absent days yields 2200. -/
theorem payroll_calculatedSalary_formula (m y now : Nat) (db : DB)
    (e : Employee) (h : hasSalary db.salaries e.id m y = false) :
    salaryFormulaOK m y now db e
    ∧ (processOne 6 2023 0 scDB scEmp).salaries.map SalaryRec.presentDays = [20]
    ∧ (processOne 6 2023 0 scDB scEmp).salaries.map SalaryRec.halfDays = [4]
    ∧ (processOne 6 2023 0 scDB scEmp).salaries.map SalaryRec.absentDays = [6]
    ∧ (processOne 6 2023 0 scDB scEmp).salaries.map SalaryRec.totalWorkingDays
        = [30]
    ∧ (processOne 6 2023 0 scDB scEmp).salaries.map SalaryRec.calculatedSalary
        = [2200] := by
  refine ⟨⟨salaryRecordFor m y db e, by rw [processOne_create m y now db e h],
    rfl, rfl, rfl, rfl, rfl⟩, by decide, by decide, by decide, by decide, ?_⟩
  rw [processOne_create 6 2023 0 scDB scEmp (by decide)]
  have h1 : countStatus 6 2023 scDB scEmp .present = 20 := by decide
  have h2 : countStatus 6 2023 scDB scEmp .halfDay = 4 := by decide
  have h3 : daysInMonth 2023 6 = 30 := by decide
  simp only [salaryRecordFor, h1, h2, h3, List.map_append, List.map_cons,
    List.map_nil]
  norm_num [scDB, scEmp]

/-- Witness for C2 at the concrete scenario store. -/
theorem payroll_calculatedSalary_formula_witness :
    hasSalary scDB.salaries scEmp.id 6 2023 = false
    ∧ salaryFormulaOK 6 2023 0 scDB scEmp :=
  ⟨by decide,
   (payroll_calculatedSalary_formula 6 2023 0 scDB scEmp (by decide)).1⟩

/-- C3: the persisted netSalary equals max(0, calculatedSalary -
advanceDeductions) where advanceDeductions sums the employee's undeducted
advances created in the month window, so netSalary is never negative; the
scenario advance of 2500 against a 2200 pay yields netSalary 0. -/
theorem payroll_netSalary_clamped (m y now : Nat) (db : DB) (e : Employee)
    (h : hasSalary db.salaries e.id m y = false) :
    netSalaryOK m y now db e
    ∧ (processOne 6 2023 0 scDB2 scEmp).salaries.map SalaryRec.advanceDeductions
        = [2500]
    ∧ (processOne 6 2023 0 scDB2 scEmp).salaries.map SalaryRec.calculatedSalary
        = [2200]
    ∧ (processOne 6 2023 0 scDB2 scEmp).salaries.map SalaryRec.netSalary
        = [0] := by
  have h1 : countStatus 6 2023 scDB2 scEmp .present = 20 := by decide
  have h2 : countStatus 6 2023 scDB2 scEmp .halfDay = 4 := by decide
  have h3 : daysInMonth 2023 6 = 30 := by decide
  have h4 : collectedAdvances 6 2023 scDB2 scEmp
      = [⟨10, 1, 2500, false, none, ⟨2023, 6, 15⟩⟩] := by
    simp [collectedAdvances, collectsAdvance, scDB2, inWindow, dateLE,
      daysInMonth, isLeapYear, scEmp]
  refine ⟨⟨salaryRecordFor m y db e, by rw [processOne_create m y now db e h],
    rfl, rfl, le_max_left 0 _⟩, ?_, ?_, ?_⟩
  · rw [processOne_create 6 2023 0 scDB2 scEmp (by decide)]
    simp only [salaryRecordFor, h4, List.map_append, List.map_cons, List.map_nil]
    norm_num [scDB2]
  · rw [processOne_create 6 2023 0 scDB2 scEmp (by decide)]
    simp only [salaryRecordFor, h1, h2, h3, List.map_append, List.map_cons,
      List.map_nil]
    norm_num [scDB2, scEmp]
  · rw [processOne_create 6 2023 0 scDB2 scEmp (by decide)]
    simp only [salaryRecordFor, h1, h2, h3, h4, List.map_append, List.map_cons,
      List.map_nil]
    norm_num [scDB2, scEmp]

/-- Witness for C3 at the concrete scenario store. -/
theorem payroll_netSalary_clamped_witness :
    hasSalary scDB2.salaries scEmp.id 6 2023 = false
    ∧ netSalaryOK 6 2023 0 scDB2 scEmp :=
  ⟨by decide, (payroll_netSalary_clamped 6 2023 0 scDB2 scEmp (by decide)).1⟩

/-- C4: an advance is newly marked deducted (isDeducted true with a
deductedDate) exactly when it was collected into the advanceDeductions sum
of a successfully persisted Salary record; when the salary save fails, or
the employee is skipped, no advance is touched. -/
theorem payroll_advances_marked_iff (m y now : Nat) (db : DB) (e : Employee)
    (hadv : (db.advances.map AdvanceRec.id).Nodup) :
    advanceMarkOK m y now db e := by
  refine ⟨?_, ?_, ?_⟩
  · intro h
    simp [processEmployeeAttempt, h]
  · intro h
    constructor <;> simp [processEmployeeAttempt, h]
  · intro h
    have hred : (processEmployeeAttempt true m y now db e).1
        = { db with
            salaries := db.salaries ++ [salaryRecordFor m y db e],
            advances := markAdvances m y now db e } := by
      simp [processEmployeeAttempt, h]
    refine ⟨?_, salaryRecordFor m y db e, ?_, rfl⟩
    · rw [hred]
      exact markAdvances_eq m y now db e hadv
    · rw [hred]

/-- Witness for C4 at the concrete scenario store. -/
theorem payroll_advances_marked_iff_witness :
    (scDB4.advances.map AdvanceRec.id).Nodup
    ∧ advanceMarkOK 6 2023 99 scDB4 scEmp :=
  ⟨by decide, payroll_advances_marked_iff 6 2023 99 scDB4 scEmp (by decide)⟩

/-- C5: the persisted totalWorkingDays is the standard Gregorian day count
of the requested (year, month) — 28, 29, 30 or 31, with 29 for a leap-year
February — and it is the denominator of the daily pay rate. -/
theorem payroll_totalWorkingDays_gregorian (m y now : Nat) (db : DB)
    (e : Employee) (h1 : 1 ≤ m) (h2 : m ≤ 12)
    (h : hasSalary db.salaries e.id m y = false) :
    workingDaysOK m y now db e
    ∧ (daysInMonth y m = 28 ∨ daysInMonth y m = 29 ∨ daysInMonth y m = 30
        ∨ daysInMonth y m = 31)
    ∧ (isLeapYear y = true → daysInMonth y 2 = 29)
    ∧ (isLeapYear y = false → daysInMonth y 2 = 28)
    ∧ daysInMonth 2024 2 = 29
    ∧ daysInMonth 2023 2 = 28
    ∧ daysInMonth 2023 6 = 30
    ∧ daysInMonth 2023 12 = 31 := by
  refine ⟨⟨salaryRecordFor m y db e, by rw [processOne_create m y now db e h],
    rfl, rfl⟩, ?_, ?_, ?_, by decide, by decide, by decide, by decide⟩
  · interval_cases m <;> cases hy : isLeapYear y <;> simp [daysInMonth, hy]
  · intro hy
    simp [daysInMonth, hy]
  · intro hy
    simp [daysInMonth, hy]

/-- Witness for C5 at the concrete scenario store. -/
theorem payroll_totalWorkingDays_gregorian_witness :
    (1 ≤ 6 ∧ 6 ≤ 12 ∧ hasSalary scDB.salaries scEmp.id 6 2023 = false)
    ∧ workingDaysOK 6 2023 0 scDB scEmp :=
  ⟨⟨by decide, by decide, by decide⟩,
   (payroll_totalWorkingDays_gregorian 6 2023 0 scDB scEmp (by decide)
      (by decide) (by decide)).1⟩
